import Mathlib

/-!
# dalforge — verification of the generated DAL runtime

Shallow embedding of the dalforge code generator and of the runtime behaviour of
the DAL code it generates, together with proofs about the embedded definitions.

Sources embedded here:
* generator/templates/dal/server_provider.go — jump consistent hash;
* generator/queryhelpers.go — list query / where-clause construction;
* generator/templatehelpers.go — casing helpers and the unique-column cache
  invalidation snippet;
* the DAL operation templates (get_by_id.tmpl, the get/list/create/update/
  delete/store/invalidate templates) — modelled for a representative generated
  entity (the example `user` entity with a unique `email` column and a plain
  `age` column);
* the circuit-breaker wrapping of store calls.

Machine integers are modelled as `Int`/`Nat` (Go `int64` values in this code
never overflow in the modelled operations; the uint64 LCG step of the jump
hash is taken mod 2^64 explicitly).  Caches are association lists keyed by the
same strings the Go code uses.  Wall-clock time is passed in explicitly as a
`Nat` parameter; TTL expiry is not modelled (no claim depends on it).
-/

set_option autoImplicit false

namespace DalForge

/-! ## Jump consistent hash (server_provider.go lines 217-227)

Go source:
```
func jumpConsistentHash(key uint64, numBuckets int) int {
    var b int64 = -1
    var j int64 = 0
    for j < int64(numBuckets) {
        b = j
        key = key*2862933555777941757 + 1
        j = int64(float64(j+1) * (float64(1<<31) / float64((key>>33)+1)))
    }
    return int(b)
}
```
The uint64 multiply-add wraps mod 2^64.  The `float64` expression is modelled
by exact integer arithmetic `((j+1) * 2^31) / ((key >> 33) + 1)` (floor
division); the float evaluation computes the same value up to rounding in the
last ulp, and the properties proved below (determinism of the model and the
result staying inside `[0, numBuckets)`) are insensitive to that rounding:
`b` is only ever assigned values of `j` that passed the `j < numBuckets`
guard, and the step always moves `j` up by at least one because the divisor
`(key >> 33) + 1` is at most `2^31`.
-/

/-- One step of the 64-bit linear congruential perturbation of the key,
wrapping modulo 2^64 as the Go `uint64` arithmetic does. -/
def lcgStep (key : Nat) : Nat :=
  (key * 2862933555777941757 + 1) % 2 ^ 64

/-- The jump of the loop counter: `int64(float64(j+1) * (float64(1<<31) /
float64((key>>33)+1)))`, modelled with exact floor division. -/
def jumpStride (key j : Nat) : Nat :=
  ((j + 1) * 2 ^ 31) / (key / 2 ^ 33 + 1)

theorem lcgStep_lt (key : Nat) : lcgStep key < 2 ^ 64 :=
  Nat.mod_lt _ (by norm_num)

theorem jumpStride_ge (key j : Nat) (hk : key < 2 ^ 64) :
    j + 1 ≤ jumpStride key j := by
  have hdiv : key / 2 ^ 33 + 1 ≤ 2 ^ 31 := by
    have : key / 2 ^ 33 < 2 ^ 31 := by
      apply Nat.div_lt_of_lt_mul
      calc key < 2 ^ 64 := hk
        _ = 2 ^ 33 * 2 ^ 31 := by norm_num
    omega
  have hpos : 0 < key / 2 ^ 33 + 1 := Nat.succ_pos _
  rw [jumpStride, Nat.le_div_iff_mul_le hpos]
  calc (j + 1) * (key / 2 ^ 33 + 1) ≤ (j + 1) * 2 ^ 31 :=
        Nat.mul_le_mul_left _ hdiv
    _ = (j + 1) * 2 ^ 31 := rfl

/-- The `for j < int64(numBuckets)` loop of `jumpConsistentHash`:
`b` carries the last in-range bucket, `j` the loop counter. -/
def jumpLoop (key : Nat) (b : Int) (j numBuckets : Nat) : Int :=
  if _h : j < numBuckets then
    let key' := lcgStep key
    jumpLoop key' (j : Int) (jumpStride key' j) numBuckets
  else b
termination_by numBuckets - j
decreasing_by
  have h1 : j + 1 ≤ jumpStride (lcgStep key) j :=
    jumpStride_ge (lcgStep key) j (lcgStep_lt key)
  omega

/-- `jumpConsistentHash` from server_provider.go: `b` starts at `-1`, `j` at
`0`; the key is a `uint64`, hence reduced mod 2^64 on entry. -/
def jumpConsistentHash (key numBuckets : Nat) : Int :=
  jumpLoop (key % 2 ^ 64) (-1) 0 numBuckets

theorem jumpLoop_range (key : Nat) (b : Int) (j n : Nat)
    (hb0 : 0 ≤ b) (hbn : b < (n : Int)) :
    0 ≤ jumpLoop key b j n ∧ jumpLoop key b j n < (n : Int) := by
  rw [jumpLoop]
  split
  · next h =>
    exact jumpLoop_range (lcgStep key) (j : Int) (jumpStride (lcgStep key) j) n
      (Int.ofNat_nonneg j) (by exact_mod_cast h)
  · exact ⟨hb0, hbn⟩
termination_by n - j
decreasing_by
  have h1 : j + 1 ≤ jumpStride (lcgStep key) j :=
    jumpStride_ge (lcgStep key) j (lcgStep_lt key)
  omega

/-- C3: jumpConsistentHash is a pure deterministic function: for every
(key, numBuckets) pair with numBuckets >= 1, repeated evaluation yields the
same bucket index, and that index lies in the range [0, numBuckets) (the last
in-range bucket index when the iteration stops at j >= numBuckets). -/
theorem c3_jump_hash_deterministic_in_range (key n : Nat) (hn : 1 ≤ n) :
    jumpConsistentHash key n = jumpConsistentHash key n ∧
    0 ≤ jumpConsistentHash key n ∧ jumpConsistentHash key n < (n : Int) := by
  refine ⟨rfl, ?_⟩
  rw [jumpConsistentHash, jumpLoop]
  have h0 : 0 < n := hn
  rw [dif_pos h0]
  exact jumpLoop_range _ ((0 : Nat) : Int) _ n (by norm_num) (by exact_mod_cast h0)

/-- Witness for C3 at the spec's own test vector key=42, buckets=5. -/
theorem c3_jump_hash_witness :
    (1 ≤ 5 ∧ 0 ≤ jumpConsistentHash 42 5 ∧ jumpConsistentHash 42 5 < (5 : Int)) :=
  ⟨by decide, (c3_jump_hash_deterministic_in_range 42 5 (by decide)).2⟩

/-! ## Generator string helpers (templatehelpers.go, queryhelpers.go)

The casing helpers are modelled for ASCII input (the validator only accepts
snake_case ASCII names, so the language-aware casers of golang.org/x/text
coincide with ASCII casing on every accepted input). -/

/-- `SnakeCaser` (templatehelpers.go lines 43-57): insert `_` before every
uppercase rune except at position 0, and lowercase it.  The boolean argument
of the worker tracks whether we are at the first rune (Go: `i > 0`). -/
def snakeCaserAux : Bool → List Char → List Char
  | _, [] => []
  | first, c :: cs =>
    if c.isUpper then
      (if first then [c.toLower] else ['_', c.toLower]) ++ snakeCaserAux false cs
    else c :: snakeCaserAux false cs

def snakeCaser (s : String) : String :=
  String.mk (snakeCaserAux true s.data)

/-- `splitIntoParts` (templatehelpers.go lines 60-64): `strings.FieldsFunc`
splitting on `_`, space and `-`; FieldsFunc drops empty fields. -/
def splitIntoParts (s : String) : List String :=
  (s.split (fun c => c = '_' || c = ' ' || c = '-')).filter (fun p => p ≠ "")

/-- Title-casing of one separator-free part: lowercase it, then capitalize the
first letter (`titleCaser.String(lowerCaser.String(p))`, ASCII model). -/
def titleLowerPart (p : String) : String :=
  match p.data with
  | [] => ""
  | c :: cs => String.mk (c.toUpper :: cs.map Char.toLower)

/-- `PascalCaser` (templatehelpers.go lines 19-25). -/
def pascalCaser (s : String) : String :=
  String.join ((splitIntoParts s).map titleLowerPart)

/-- `\w` of the Go regexp `:(\w+)`. -/
def isWordChar (c : Char) : Bool :=
  c.isAlphanum || c = '_'

/-- White space as trimmed by `strings.TrimSpace` (ASCII model). -/
def isSpaceChar (c : Char) : Bool :=
  c = ' ' || c = '\t' || c = '\n' || c = '\r'

/-- `strings.TrimSpace`, implemented structurally so that it evaluates inside
the kernel. -/
def trimSpace (s : String) : String :=
  String.mk (((s.data.dropWhile isSpaceChar).reverse.dropWhile isSpaceChar).reverse)

/-- `replaceParams` (queryhelpers.go lines 48-51): replace every `:(\w+)`
occurrence by `?`.  Implemented as a left-to-right scan with a fuel argument
(one unit of fuel per consumed character keeps the definition structural and
kernel-evaluable); fuel `cs.length` always suffices because every step
consumes at least one character. -/
def replaceParamsAux : Nat → List Char → List Char
  | 0, cs => cs
  | fuel + 1, cs =>
    match cs with
    | [] => []
    | ':' :: rest =>
      let w := rest.takeWhile isWordChar
      if w = [] then ':' :: replaceParamsAux fuel rest
      else '?' :: replaceParamsAux fuel (rest.drop w.length)
    | c :: rest => c :: replaceParamsAux fuel rest

def replaceParams (s : String) : String :=
  String.mk (replaceParamsAux s.data.length s.data)

/-- A list-definition config block of the YAML (generator.ListConfig).  The
`where` field of the Go struct is called `whereClause` here because `where`
is a Lean keyword. -/
structure ListConfig where
  name : String
  whereClause : String
  order : String
  descending : Bool
deriving DecidableEq, Repr

/-- `listWhereQuery` (queryhelpers.go lines 62-86).  In the Go code `result`
is empty when the custom-where branch runs, so the dead `result != ""` guard
there collapses; the cursor predicates are appended exactly under the Go
conditions: `id < ?` needs `Descending && !isStartIdZero && Order != ""`,
`id > ?` needs `!Descending && !isStartIdZero`. -/
def listWhereQuery (isStartIdZero : Bool) (list : ListConfig) : String :=
  let result := if trimSpace list.whereClause ≠ "" then replaceParams list.whereClause else ""
  if list.descending && !isStartIdZero && trimSpace list.order ≠ "" then
    (if result ≠ "" then result ++ " AND " else result) ++ "id < ?"
  else if !list.descending && !isStartIdZero then
    (if result ≠ "" then result ++ " AND " else result) ++ "id > ?"
  else result

/-- Insertion into a lexicographically sorted list of strings
(`sort.Strings`). -/
def charListLe : List Char → List Char → Bool
  | [], _ => true
  | _ :: _, [] => false
  | a :: as, b :: bs =>
    if a.toNat = b.toNat then charListLe as bs else Nat.blt a.toNat b.toNat

/-- Lexicographic string order, matching Go byte order on ASCII input. -/
def strLe (s t : String) : Bool :=
  charListLe s.data t.data

def insertSorted (s : String) : List String → List String
  | [] => [s]
  | t :: ts => if strLe s t then s :: t :: ts else t :: insertSorted s ts

def sortStrings (l : List String) : List String :=
  l.foldr insertSorted []

/-- `querySelect` (queryhelpers.go lines 10-25): `id, version, ` then every
column name snake-cased in sorted order each followed by `, `, then
`created, updated`.  Columns are passed as their declared names. -/
def querySelect (columns : List String) : String :=
  "id, version, " ++
    String.join ((sortStrings columns).map (fun n => snakeCaser n ++ ", ")) ++
    "created, updated"

/-- `listQuery` (queryhelpers.go lines 88-110). -/
def listQuery (isStartIdZero : Bool) (entityName : String) (list : ListConfig)
    (columns : List String) : String :=
  let whereStr := listWhereQuery isStartIdZero list
  let base := "SELECT " ++ querySelect columns ++ " FROM " ++ snakeCaser entityName ++ "s"
  let withWhere := if whereStr ≠ "" then base ++ " WHERE " ++ whereStr else base
  let withOrder :=
    if trimSpace list.order ≠ "" then
      withWhere ++ " ORDER BY " ++ list.order ++
        (if list.descending then " DESC, id DESC" else ", id")
    else withWhere ++ " ORDER BY id"
  withOrder ++ " LIMIT ?"

/-- Does the first character list start the second one? -/
def leadsWith : List Char → List Char → Bool
  | [], _ => true
  | _ :: _, [] => false
  | a :: as, b :: bs => a = b && leadsWith as bs

/-- Does the pattern occur contiguously inside the character list? -/
def occursIn (pat : List Char) : List Char → Bool
  | [] => leadsWith pat []
  | c :: rest => leadsWith pat (c :: rest) || occursIn pat rest

/-- Substring test used to state facts about generated SQL text. -/
def strContains (s pat : String) : Bool :=
  occursIn pat.data s.data

/-- A descending list that declares no order column.  The validator
(validator.go) accepts this configuration: `Order` is optional and is never
required to accompany `desc: true`. -/
def brokenDescList : ListConfig :=
  { name := "recent_list", whereClause := "", order := "", descending := true }

/-- C4 (code bug, failing input): for a descending list with no declared order
column and a non-zero cursor, `listWhereQuery` produces no cursor predicate at
all — the `id < ?` branch of queryhelpers.go line 73 additionally requires
`Order != ""` — so the generated SQL for the non-first page has no strict id
predicate (and only the single `LIMIT ?` placeholder, although the list
template still binds both `startID` and `pageSize` for it), contradicting the
claim that every non-zero-cursor query carries `id < cursor` when descending. -/
theorem c4_descending_without_order_loses_cursor :
    brokenDescList.descending = true ∧
    listWhereQuery false brokenDescList = "" ∧
    listQuery false "post" brokenDescList ["deleted", "post", "target_age"] =
      "SELECT id, version, deleted, post, target_age, created, updated FROM posts ORDER BY id LIMIT ?" ∧
    strContains (listQuery false "post" brokenDescList ["deleted", "post", "target_age"])
      "id < ?" = false ∧
    strContains (listQuery false "post" brokenDescList ["deleted", "post", "target_age"])
      "id > ?" = false := by
  decide

/-- Cache key under which the generated `GetBy<Column>` stores the column→id
mapping (get_operation template line 16):
`fmt.Sprintf("{{$entityTableName}}_{{.ColumnName | snakeCase}}:%v", value)`. -/
def getByColumnCacheKey (entityName colName value : String) : String :=
  snakeCaser entityName ++ "_" ++ snakeCaser colName ++ ":" ++ value

/-- Cache key the generated `Update` deletes for a changed unique-column value
(templatehelpers.go `invalidateUniqueColumnsCache`, line 256): the emitted
statement is `oldCacheKey := fmt.Sprintf("user_%s:%s", oldValue)` with the
format built as `"user_" + SnakeCaser(colName) + ":%s"` — the `user_` prefix
is a literal in the template helper, independent of the entity name (the
neighbouring `InvalidateCache("%s", ...)` call on line 258 does use
`SnakeCaser(config.Name)`). -/
def updateOldValueCacheKey (colName oldValue : String) : String :=
  "user_" ++ snakeCaser colName ++ ":" ++ oldValue

/-- C6 (code bug, failing input): for an entity named `account` with unique
column `email`, the key deleted by the generated Update after an email change
(`user_email:a@x.com`) differs from the key under which GetByEmail cached the
old mapping (`account_email:a@x.com`), so the stale mapping survives; the two
keys coincide only for the entity literally named `user`. -/
theorem c6_old_unique_key_not_deleted :
    updateOldValueCacheKey "email" "a@x.com" ≠
      getByColumnCacheKey "account" "email" "a@x.com" ∧
    updateOldValueCacheKey "email" "a@x.com" =
      getByColumnCacheKey "user" "email" "a@x.com" := by
  decide

/-! ## Runtime model of the generated DAL

The templates produce one DAL per entity.  The model below is the generated
code for a representative entity: the example `user` entity with one unique
column `email` exposed as `GetByEmail` and one plain column `age`.  The three
in-process caches of the generated struct are modelled as association lists:
`cache` (single entities and column→id mappings share one instance, as in the
generated struct), `listCache` and `countCache`.  The relational store is the
list of its rows.  The circuit breaker passes calls through when closed; its
state machine is modelled separately below (the DAL operations here model the
pass-through behaviour of a closed breaker). -/

/-- A row / in-memory entity of the example `user` table. -/
structure User where
  id : Int
  version : Int
  email : String
  age : Int
  created : Nat
  updated : Nat
deriving DecidableEq, Repr

/-- The error taxonomy of the generated package: `ErrNotFound`,
`ErrOperationBlocked`, the gobreaker open-state error, the cache
wrong-type error, and the catch-all for `fmt.Errorf` wrappers. -/
inductive DalErr where
  | notFound
  | operationBlocked
  | breakerOpen
  | typeError
  | other
deriving DecidableEq, Repr

/-- A value stored in the shared `d.cache` instance: either an entity
snapshot or an id stored by a column→id mapping (an `interface` value in Go). -/
inductive CVal where
  | ent (u : User)
  | idv (i : Int)
deriving DecidableEq, Repr

/-- `cache.Get`. -/
def lookupKey {α : Type} (m : List (String × α)) (k : String) : Option α :=
  (m.find? (fun p => p.1 = k)).map (fun p => p.2)

/-- `cache.Delete`. -/
def eraseKey {α : Type} (m : List (String × α)) (k : String) : List (String × α) :=
  m.filter (fun p => p.1 ≠ k)

/-- `cache.Set` (replaces an existing entry for the key). -/
def setKey {α : Type} (m : List (String × α)) (k : String) (v : α) : List (String × α) :=
  (k, v) :: eraseKey m k

abbrev CacheMap := List (String × CVal)

/-- Per-entity configuration bits the generated code branches on: the
caching `maxItemsCount` ceiling, whether `listInvalidation` is `flush`, and
the two Access-Gate switches of the config provider. -/
structure DalConfig where
  maxItemsCount : Nat
  flushList : Bool
  blockedReads : Bool
  blockedWrites : Bool
deriving DecidableEq, Repr

/-- The state a generated `UserDAL` acts on: the backing store rows plus the
three local caches. -/
structure DalState where
  store : List User
  cache : CacheMap
  listCache : List (String × List Int)
  countCache : List (String × Int)
deriving DecidableEq, Repr

/-- Modelled from the spec: the single-entity cache key format
`entity_name:id` (§3, "Cache Entry (single): keyed by entity_name:id"); the
`getCacheKey` helper itself lives in the generated base template, which is not
among the sources. Every modelled operation uses this same function, so the
claims below do not depend on the exact format. -/
def getCacheKey (id : Int) : String :=
  "user:" ++ toString id

/-- `getByIDCached` (get_by_id.tmpl lines 58-77): look the id up in the
single-entity cache; a hit returns a copy of the snapshot (value semantics
here; the pointer discipline is modelled separately below), a value of the
wrong dynamic type is an error, a miss returns nothing. -/
def getByIDCached (c : CacheMap) (id : Int) : Except DalErr (Option User) :=
  match lookupKey c (getCacheKey id) with
  | some (.ent u) => .ok (some u)
  | some (.idv _) => .error .typeError
  | none => .ok none

/-- `setCached` (get_by_id.tmpl lines 39-55): store a copy of the entity under
its cache key, but only when the cache currently holds fewer than
`maxItemsCount` items; otherwise the write is skipped. -/
def setCached (cfg : DalConfig) (c : CacheMap) (u : User) : CacheMap :=
  if c.length < cfg.maxItemsCount then setKey c (getCacheKey u.id) (.ent u) else c

/-- The store-side `getByID` (get_by_id.tmpl lines 79-115): `SELECT ... WHERE
id = ?`; no row is `ErrNotFound`. -/
def dbGetByID (store : List User) (id : Int) : Except DalErr User :=
  match store.find? (fun r => r.id = id) with
  | some r => .ok r
  | none => .error .notFound

/-- `GetByID` (get_by_id.tmpl lines 6-37): gate check, cache lookup (a cache
error is discarded: `cachedEntity, _ := d.getByIDCached(id)`), then the
breaker-wrapped store read, then `setCached`. -/
def GetByID (cfg : DalConfig) (s : DalState) (id : Int) :
    DalState × Except DalErr User :=
  if cfg.blockedReads then (s, .error .operationBlocked)
  else
    match getByIDCached s.cache id with
    | .ok (some u) => (s, .ok u)
    | _ =>
      match dbGetByID s.store id with
      | .error er => (s, .error er)
      | .ok u => ({ s with cache := setCached cfg s.cache u }, .ok u)

/-- The store-side `getByEmail` (get_operation template lines 51-88):
`SELECT ... WHERE email = ?`. -/
def dbGetByEmail (store : List User) (email : String) : Except DalErr User :=
  match store.find? (fun r => r.email = email) with
  | some r => .ok r
  | none => .error .notFound

/-- `GetByEmail` (get_operation template lines 7-49): gate check, lookup of
the `user_email:<value>` →id mapping (a hit recurses into `GetByID`, a value
of the wrong type is an error), else breaker-wrapped store read followed by an
*unconditional* `d.cache.Set` of the mapping (no `ItemCount` ceiling check on
this write). -/
def GetByEmail (cfg : DalConfig) (s : DalState) (email : String) :
    DalState × Except DalErr User :=
  if cfg.blockedReads then (s, .error .operationBlocked)
  else
    match lookupKey s.cache ("user_email:" ++ email) with
    | some (.idv i) => GetByID cfg s i
    | some (.ent _) => (s, .error .typeError)
    | none =>
      match dbGetByEmail s.store email with
      | .error er => (s, .error er)
      | .ok u =>
        ({ s with cache := setKey s.cache ("user_email:" ++ email) (.idv u.id) }, .ok u)

/-- The conditional `UPDATE users SET email=?, age=?, updated=?, version =
version + 1 WHERE id = ? AND version = ?` (update template lines 53-57):
returns the rows after execution together with the affected-row count. -/
def sqlConditionalUpdate (store : List User) (e : User) : List User × Nat :=
  (store.map (fun r =>
      if r.id = e.id ∧ r.version = e.version then
        { r with email := e.email, age := e.age, updated := e.updated,
                 version := r.version + 1 }
      else r),
   (store.filter (fun r => r.id = e.id ∧ r.version = e.version)).length)

/-- The store-side `update` (update template lines 47-89): stamp
`entity.Updated`, run the conditional write; zero affected rows deletes the
single-entity cache entry for the id (`d.InvalidateCache(entity)`) and
returns `ErrNotFound`.  The stamped entity is returned alongside because the
Go function mutates it through the pointer. -/
def updateInner (s : DalState) (e : User) (now : Nat) :
    DalState × User × Except DalErr Unit :=
  let e1 := { e with updated := now }
  let r := sqlConditionalUpdate s.store e1
  let s1 := { s with store := r.1 }
  if r.2 = 0 then
    ({ s1 with cache := eraseKey s1.cache (getCacheKey e1.id) }, e1, .error .notFound)
  else
    (s1, e1, .ok ())

/-- `Update` (update template lines 7-45): write-gate check, `GetByID` of the
existing row (the entity has get operations), capture of the old email when
changed (`checkColumnsChanged`), the breaker-wrapped conditional write, and on
success: deletion of the old `user_email:<old>` mapping
(`invalidateUniqueColumnsCache`), `InvalidateCache` of the single-entity key,
`FlushListCache` (a no-op unless `listInvalidation` is `flush`),
`entity.version++`, and `setCached` of the bumped entity.  An error from the
preamble or the write is returned (the Go code wraps the preamble error with
`fmt.Errorf(..., %w, err)`; the model keeps the wrapped code). -/
def Update (cfg : DalConfig) (s : DalState) (e : User) (now : Nat) :
    DalState × Except DalErr User :=
  if cfg.blockedWrites then (s, .error .operationBlocked)
  else
    match GetByID cfg s e.id with
    | (s1, .error er) => (s1, .error er)
    | (s1, .ok existing) =>
      let oldEmail := if existing.email ≠ e.email then existing.email else ""
      match updateInner s1 e now with
      | (s2, _, .error er) => (s2, .error er)
      | (s2, e2, .ok _) =>
        let s3 := if oldEmail ≠ "" then
            { s2 with cache := eraseKey s2.cache ("user_email:" ++ oldEmail) }
          else s2
        let s4 := { s3 with cache := eraseKey s3.cache (getCacheKey e2.id) }
        let s5 := if cfg.flushList then { s4 with listCache := [], countCache := [] } else s4
        let e3 := { e2 with version := e2.version + 1 }
        ({ s5 with cache := setCached cfg s5.cache e3 }, .ok e3)

/-- `Create` (create template lines 140-206): write-gate check, rejection of
`entity.ID > 0` (a `fmt.Errorf`, modelled as the catch-all error), then the
breaker-wrapped insert which stamps `Created`/`Updated`, appends the row and
sets `entity.ID` from `LastInsertId` (passed in as `newId`), then `setCached`
of the entity and `FlushListCache`. -/
def Create (cfg : DalConfig) (s : DalState) (e : User) (now : Nat) (newId : Int) :
    DalState × Except DalErr User :=
  if cfg.blockedWrites then (s, .error .operationBlocked)
  else if 0 < e.id then (s, .error .other)
  else
    let e2 := { e with created := now, updated := now, id := newId }
    let s1 := { s with store := s.store ++ [e2] }
    let s2 := { s1 with cache := setCached cfg s1.cache e2 }
    let s3 := if cfg.flushList then { s2 with listCache := [], countCache := [] } else s2
    (s3, .ok e2)

/-- The id-resolution loop of the cached-list path (list_operation template
lines 24-38): resolve each cached id through `getByIDCached`; a cache error
aborts, a missing entity marks the whole list as missing (`break`), otherwise
the entities are collected in order. -/
def resolveIds (c : CacheMap) : List Int → Except DalErr (Option (List User))
  | [] => .ok (some [])
  | i :: rest =>
    match getByIDCached c i with
    | .error er => .error er
    | .ok none => .ok none
    | .ok (some u) =>
      match resolveIds c rest with
      | .error er => .error er
      | .ok none => .ok none
      | .ok (some us) => .ok (some (u :: us))

/-- The store-reload branch of a list operation (list_operation template lines
46-70): take the rows the breaker-wrapped query returned, `setCached` each of
them, store the id sequence in the list cache, and return the rows.  The rows
the `SELECT` returns are passed in as `dbRows`. -/
def listReload (cfg : DalConfig) (s : DalState) (key : String) (dbRows : List User) :
    DalState × Except DalErr (List User) :=
  ({ s with
      cache := dbRows.foldl (fun m u => setCached cfg m u) s.cache,
      listCache := setKey s.listCache key (dbRows.map (fun u => u.id)) },
   .ok dbRows)

/-- A generated list operation such as `ListById` (list_operation template
lines 6-71): gate check; on a list-cache hit resolve every id via
`getByIDCached` and return the entities only when all of them resolved;
any missing entity (or a list-cache miss) falls through to the store reload. -/
def ListById (cfg : DalConfig) (s : DalState) (key : String) (dbRows : List User) :
    DalState × Except DalErr (List User) :=
  if cfg.blockedReads then (s, .error .operationBlocked)
  else
    match lookupKey s.listCache key with
    | some ids =>
      match resolveIds s.cache ids with
      | .error er => (s, .error er)
      | .ok (some us) => (s, .ok us)
      | .ok none => listReload cfg s key dbRows
    | none => listReload cfg s key dbRows

/-! ## Facts about the modelled operations -/

theorem GetByID_store_eq (cfg : DalConfig) (s : DalState) (id : Int) :
    (GetByID cfg s id).1.store = s.store := by
  unfold GetByID
  split
  · rfl
  · split
    · rfl
    · split <;> rfl

theorem sqlConditionalUpdate_zero_iff (store : List User) (e : User) :
    (sqlConditionalUpdate store e).2 = 0 ↔
      ∀ r ∈ store, ¬(r.id = e.id ∧ r.version = e.version) := by
  simp [sqlConditionalUpdate, List.length_eq_zero, List.filter_eq_nil_iff]

theorem map_ite_id {α : Type} (p : α → Prop) [DecidablePred p] (f : α → α) :
    ∀ l : List α, (∀ a ∈ l, ¬ p a) →
      l.map (fun a => if p a then f a else a) = l := by
  intro l
  induction l with
  | nil => intro _; rfl
  | cons a t ih =>
    intro hno
    rw [List.map_cons, if_neg (hno a (List.mem_cons_self a t)),
      ih (fun r hr => hno r (List.mem_cons_of_mem a hr))]

theorem sqlConditionalUpdate_fst_id (e : User) (store : List User)
    (hno : ∀ r ∈ store, ¬(r.id = e.id ∧ r.version = e.version)) :
    (sqlConditionalUpdate store e).1 = store := by
  show store.map (fun r => if r.id = e.id ∧ r.version = e.version then
      { r with email := e.email, age := e.age, updated := e.updated,
               version := r.version + 1 } else r) = store
  exact map_ite_id _ _ store hno

/-- Evaluation of Update when the conditional write affects zero rows; shared
between the C1 theorem and the case analysis of C7. -/
theorem update_zero_rows_eval (cfg : DalConfig) (s s1 : DalState)
    (e ex : User) (now : Nat)
    (hw : cfg.blockedWrites = false)
    (hpre : GetByID cfg s e.id = (s1, .ok ex))
    (hz : (sqlConditionalUpdate s1.store { e with updated := now }).2 = 0) :
    Update cfg s e now =
      ({ s1 with cache := eraseKey s1.cache (getCacheKey e.id) }, .error .notFound) ∧
    ((sqlConditionalUpdate s1.store { e with updated := now }).2 = 0 ↔
      ∀ r ∈ s1.store, ¬(r.id = e.id ∧ r.version = e.version)) ∧
    s1.store = s.store := by
  have hiff := sqlConditionalUpdate_zero_iff s1.store { e with updated := now }
  have hfst := sqlConditionalUpdate_fst_id { e with updated := now } s1.store (hiff.mp hz)
  have hstore : s1.store = s.store := by
    have h1 := congrArg (fun p => p.1.store) hpre
    simp only at h1
    rw [← h1, GetByID_store_eq]
  refine ⟨?_, hiff, hstore⟩
  unfold Update
  rw [hw]
  simp only [Bool.false_eq_true, if_false, hpre]
  unfold updateInner
  simp [hz, hfst]

/-- C1: for every Update whose conditional write affects zero rows (stale
version or missing id), Update returns the NotFound error, the single-entity
cache entry for that id is evicted before the error propagates, and the store
row is left unmodified; the conditional write's predicate is
id = ? AND version = ? (zero affected rows is equivalent to no row matching
exactly that predicate). -/
theorem c1_update_zero_rows_evicts_and_notfound (cfg : DalConfig) (s s1 : DalState)
    (e ex : User) (now : Nat)
    (hw : cfg.blockedWrites = false)
    (hpre : GetByID cfg s e.id = (s1, .ok ex))
    (hz : (sqlConditionalUpdate s1.store { e with updated := now }).2 = 0) :
    Update cfg s e now =
      ({ s1 with cache := eraseKey s1.cache (getCacheKey e.id) }, .error .notFound) ∧
    ((sqlConditionalUpdate s1.store { e with updated := now }).2 = 0 ↔
      ∀ r ∈ s1.store, ¬(r.id = e.id ∧ r.version = e.version)) ∧
    s1.store = s.store :=
  update_zero_rows_eval cfg s s1 e ex now hw hpre hz

/-- Shared concrete scenario used by the witnesses below: one stored row, an
empty cache, and a client entity holding a stale version of that row. -/
def cfg0 : DalConfig :=
  { maxItemsCount := 11, flushList := true, blockedReads := false, blockedWrites := false }

def u1 : User :=
  { id := 1, version := 3, email := "a@x.com", age := 25, created := 0, updated := 0 }

def s0 : DalState :=
  { store := [u1], cache := [], listCache := [], countCache := [] }

def eStale : User :=
  { id := 1, version := 2, email := "b@x.com", age := 30, created := 0, updated := 0 }

/-- The state after the Update preamble's GetByID has cached the fresh row. -/
def s1c : DalState :=
  { store := [u1], cache := [("user:1", CVal.ent u1)], listCache := [], countCache := [] }

/-- Witness for C1: a stale-version update against `s0` really evicts and
fails with NotFound. -/
theorem c1_witness :
    cfg0.blockedWrites = false ∧
    GetByID cfg0 s0 eStale.id = (s1c, .ok u1) ∧
    (sqlConditionalUpdate s1c.store { eStale with updated := 9 }).2 = 0 ∧
    Update cfg0 s0 eStale 9 =
      ({ s1c with cache := eraseKey s1c.cache (getCacheKey eStale.id) }, .error .notFound) :=
  ⟨rfl, rfl, by decide,
    (c1_update_zero_rows_evicts_and_notfound cfg0 s0 s1c eStale u1 9 rfl rfl
      (by decide)).1⟩

theorem update_success_eval (cfg : DalConfig) (s s1 : DalState) (e ex : User) (now : Nat)
    (hw : cfg.blockedWrites = false)
    (hpre : GetByID cfg s e.id = (s1, .ok ex))
    (hnz : ¬(sqlConditionalUpdate s1.store { e with updated := now }).2 = 0) :
    (Update cfg s e now).2 = .ok { e with updated := now, version := e.version + 1 } ∧
    (Update cfg s e now).1.store = (sqlConditionalUpdate s1.store { e with updated := now }).1 := by
  unfold Update
  rw [hw]
  simp only [Bool.false_eq_true, if_false, hpre]
  unfold updateInner
  simp only [if_neg hnz]
  refine ⟨by simp, ?_⟩
  by_cases hf : cfg.flushList <;> simp [hf] <;>
    first
    | rfl
    | (split <;> rfl)

theorem sqlConditionalUpdate_version_map (store : List User) (e : User) :
    ((sqlConditionalUpdate store e).1).map (fun r => r.version) =
      store.map (fun r =>
        if r.id = e.id ∧ r.version = e.version then r.version + 1 else r.version) := by
  show (store.map _).map _ = _
  rw [List.map_map]
  apply List.map_congr_left
  intro r _
  by_cases h : r.id = e.id ∧ r.version = e.version <;> simp [h]

/-- C7: every successful Update increments the entity's version by exactly one
and never decrements it: the conditional write bumps exactly the matching rows
(id = ? AND version = ?) by one and leaves every other row's version
unchanged, and the in-memory entity returned to the caller carries version
e.version + 1 to match. -/
theorem c7_update_version_increment (cfg : DalConfig) (s s' : DalState)
    (e e3 : User) (now : Nat)
    (h : Update cfg s e now = (s', .ok e3)) :
    e3.version = e.version + 1 ∧
    s'.store.map (fun r => r.version) =
      s.store.map (fun r =>
        if r.id = e.id ∧ r.version = e.version then r.version + 1 else r.version) := by
  by_cases hw : cfg.blockedWrites
  · exfalso
    unfold Update at h
    rw [if_pos hw] at h
    exact absurd (congrArg Prod.snd h) (by simp)
  rcases hg : GetByID cfg s e.id with ⟨s1, r1⟩
  have hw' : cfg.blockedWrites = false := by simpa using hw
  cases r1 with
  | error er =>
    exfalso
    unfold Update at h
    rw [hw'] at h
    simp only [Bool.false_eq_true, if_false, hg] at h
    exact absurd (congrArg Prod.snd h) (by simp)
  | ok ex =>
    by_cases hz : (sqlConditionalUpdate s1.store { e with updated := now }).2 = 0
    · exfalso
      have := (update_zero_rows_eval cfg s s1 e ex now hw' hg hz).1
      rw [this] at h
      exact absurd (congrArg Prod.snd h) (by simp)
    · have heval := update_success_eval cfg s s1 e ex now hw' hg hz
      have hstore1 : s1.store = s.store := by
        have h1 := congrArg (fun p => p.1.store) hg
        simp only at h1
        rw [← h1, GetByID_store_eq]
      constructor
      · have h2 := heval.1
        rw [h] at h2
        simp only at h2
        rw [Except.ok.inj h2]
      · have h4 := heval.2
        rw [h] at h4
        simp only at h4
        rw [h4, sqlConditionalUpdate_version_map, hstore1]

/-- A client entity carrying the current version of the stored row, so that
its conditional update succeeds. -/
def eFresh : User :=
  { id := 1, version := 3, email := "b@x.com", age := 30, created := 0, updated := 0 }

/-- The row as it looks after the successful update of `u1` by `eFresh`. -/
def uBumped : User :=
  { id := 1, version := 4, email := "b@x.com", age := 30, created := 0, updated := 9 }

/-- Witness for C7: the successful update of `u1` by `eFresh` returns version
4 = 3 + 1 and bumps the stored row to version 4. -/
theorem c7_witness :
    Update cfg0 s0 eFresh 9 =
      ({ store := [uBumped], cache := [("user:1", CVal.ent uBumped)],
         listCache := [], countCache := [] }, .ok uBumped) ∧
    uBumped.version = eFresh.version + 1 :=
  ⟨by rfl,
    (c7_update_version_increment cfg0 s0 _ eFresh _ 9 (by rfl)).1⟩

theorem lookupKey_setKey_self {α : Type} (m : List (String × α)) (k : String) (v : α) :
    lookupKey (setKey m k v) k = some v := by
  simp [lookupKey, setKey]

/-- C9 counterexample input: an entity with a negative (hence nonzero) id. -/
def eNeg : User :=
  { id := -1, version := 0, email := "n@x.com", age := 1, created := 0, updated := 0 }

/-- C9 (counterexample): the claim says every entity with a nonzero id is
rejected, but the generated guard is `entity.ID > 0`, so an entity with
id = -1 sails through: Create succeeds and performs the store insert. -/
theorem c9_counterexample_negative_id_inserts :
    eNeg.id ≠ 0 ∧
    (Create cfg0 s0 eNeg 7 2).2 =
      .ok { id := 2, version := 0, email := "n@x.com", age := 1, created := 7, updated := 7 } ∧
    (Create cfg0 s0 eNeg 7 2).1.store ≠ s0.store := by
  refine ⟨by decide, by rfl, by decide⟩

/-- C9 (amended): Create rejects exactly the entities with a positive id (not
every nonzero id) and performs no insert for them; for id ≤ 0 it succeeds,
assigns the created/updated timestamps and the store-generated id, appends
the row to the store, stores the entity in the single-entity cache provided
the cache is below the configured item ceiling, and flushes the list/count
caches when the configured list-invalidation mode is flush. -/
theorem c9_create_amended (cfg : DalConfig) (s : DalState) (e : User)
    (now : Nat) (newId : Int)
    (hw : cfg.blockedWrites = false) :
    (0 < e.id → Create cfg s e now newId = (s, .error .other)) ∧
    (e.id ≤ 0 →
      ∃ s' e2, Create cfg s e now newId = (s', .ok e2) ∧
        e2.created = now ∧ e2.updated = now ∧ e2.id = newId ∧
        e2.email = e.email ∧ e2.age = e.age ∧
        s'.store = s.store ++ [e2] ∧
        (s.cache.length < cfg.maxItemsCount →
          lookupKey s'.cache (getCacheKey newId) = some (.ent e2)) ∧
        (cfg.flushList = true → s'.listCache = [] ∧ s'.countCache = []) ∧
        (cfg.flushList = false → s'.listCache = s.listCache ∧ s'.countCache = s.countCache)) := by
  constructor
  · intro hpos
    unfold Create
    rw [hw]
    simp [hpos]
  · intro hle
    have hnpos : ¬0 < e.id := by omega
    by_cases hf : cfg.flushList
    · refine ⟨{ store := s.store ++ [{ e with created := now, updated := now, id := newId }],
                cache := setCached cfg s.cache { e with created := now, updated := now, id := newId },
                listCache := [], countCache := [] },
              { e with created := now, updated := now, id := newId },
              ?_, rfl, rfl, rfl, rfl, rfl, rfl, ?_, ?_, ?_⟩
      · simp [Create, hw, hnpos, hf]
      · intro hlt
        simp [setCached, hlt, lookupKey_setKey_self]
      · intro _
        exact ⟨rfl, rfl⟩
      · intro hcontra
        rw [hf] at hcontra
        simp at hcontra
    · refine ⟨{ store := s.store ++ [{ e with created := now, updated := now, id := newId }],
                cache := setCached cfg s.cache { e with created := now, updated := now, id := newId },
                listCache := s.listCache, countCache := s.countCache },
              { e with created := now, updated := now, id := newId },
              ?_, rfl, rfl, rfl, rfl, rfl, rfl, ?_, ?_, ?_⟩
      · simp [Create, hw, hnpos, hf]
      · intro hlt
        simp [setCached, hlt, lookupKey_setKey_self]
      · intro hcontra
        exact absurd hcontra hf
      · intro _
        exact ⟨rfl, rfl⟩

/-- Witness for C9 (amended), instantiated at an unsaved entity (id = 0). -/
def eZero : User :=
  { id := 0, version := 0, email := "z@x.com", age := 2, created := 0, updated := 0 }

theorem c9_create_amended_witness :
    ∃ s' e2, Create cfg0 s0 eZero 7 2 = (s', .ok e2) ∧
      e2.created = 7 ∧ e2.updated = 7 ∧ e2.id = 2 ∧
      e2.email = eZero.email ∧ e2.age = eZero.age ∧
      s'.store = s0.store ++ [e2] ∧
      (s0.cache.length < cfg0.maxItemsCount →
        lookupKey s'.cache (getCacheKey 2) = some (.ent e2)) ∧
      (cfg0.flushList = true → s'.listCache = [] ∧ s'.countCache = []) ∧
      (cfg0.flushList = false → s'.listCache = s0.listCache ∧ s'.countCache = s0.countCache) :=
  (c9_create_amended cfg0 s0 eZero 7 2 rfl).2 (by decide)

/-- C8 counterexample state: a cache already filled to the configured ceiling
(cfg0.maxItemsCount = 11 items), plus the row for the email being fetched. -/
def fullCache : CacheMap :=
  (List.range 11).map (fun i =>
    ("user:" ++ toString i,
     CVal.ent { id := i, version := 0, email := "e", age := 0, created := 0, updated := 0 }))

def s8 : DalState :=
  { store := [u1], cache := fullCache, listCache := [], countCache := [] }

/-- C8 (counterexample): with the cache already at the ceiling, a GetByEmail
miss still writes the email→id mapping unconditionally (get_operation
template line 46 has no ItemCount check), pushing the item count above
maxItemsCount — so not every kind of cache write is skipped at the ceiling. -/
theorem c8_counterexample_secondary_write_over_ceiling :
    s8.cache.length = cfg0.maxItemsCount ∧
    (GetByEmail cfg0 s8 "a@x.com").2 = .ok u1 ∧
    (GetByEmail cfg0 s8 "a@x.com").1.cache.length = cfg0.maxItemsCount + 1 := by
  refine ⟨by rfl, by rfl, by rfl⟩

/-- C8 (amended): the configured item-count ceiling is enforced only by
setCached, the write path for single-entity snapshots: such a write is
skipped (the cache left unchanged, nothing force-evicted) whenever the cache
already holds maxItemsCount or more items, and performed below the ceiling;
the secondary-key column-to-id mapping writes of GetBy<Column> bypass the
check (see the counterexample). -/
theorem c8_ceiling_amended (cfg : DalConfig) (c : CacheMap) (u : User) :
    (cfg.maxItemsCount ≤ c.length → setCached cfg c u = c) ∧
    (c.length < cfg.maxItemsCount →
      setCached cfg c u = setKey c (getCacheKey u.id) (.ent u)) := by
  constructor <;> intro h
  · have : ¬c.length < cfg.maxItemsCount := by omega
    simp [setCached, this]
  · simp [setCached, h]

theorem c8_ceiling_amended_witness :
    setCached cfg0 fullCache u1 = fullCache :=
  (c8_ceiling_amended cfg0 fullCache u1).1 (by decide)

deriving instance DecidableEq for Except

/-- The entity a single-entity cache hit would deliver for an id, if any;
used to state the order-preservation of cached-list reconstruction. -/
def cachedHit (c : CacheMap) (i : Int) : Option User :=
  match getByIDCached c i with
  | .ok (some u) => some u
  | _ => none

theorem getByIDCached_cases (c : CacheMap) (i : Int) :
    (∃ o, getByIDCached c i = .ok o) ∨ getByIDCached c i = .error .typeError := by
  unfold getByIDCached
  rcases lookupKey c (getCacheKey i) with _ | v
  · exact .inl ⟨none, rfl⟩
  · cases v with
    | ent u => exact .inl ⟨some u, rfl⟩
    | idv j => exact .inr rfl

theorem resolveIds_none_of_miss (c : CacheMap) (ids : List Int)
    (hne : ∀ i ∈ ids, getByIDCached c i ≠ .error .typeError)
    (hmiss : ∃ i ∈ ids, getByIDCached c i = .ok none) :
    resolveIds c ids = .ok none := by
  induction ids with
  | nil =>
    rcases hmiss with ⟨i, hi, _⟩
    cases hi
  | cons a l ih =>
    rcases getByIDCached_cases c a with ⟨o, ho⟩ | herr
    · cases o with
      | none => simp [resolveIds, ho]
      | some u =>
        have hmiss2 : ∃ i ∈ l, getByIDCached c i = .ok none := by
          rcases hmiss with ⟨i, hi, he⟩
          rcases List.mem_cons.mp hi with hia | hil
          · rw [hia] at he
            rw [he] at ho
            cases ho
          · exact ⟨i, hil, he⟩
        have hres := ih (fun i hi => hne i (List.mem_cons_of_mem a hi)) hmiss2
        simp [resolveIds, ho, hres]
    · exact absurd herr (hne a (List.mem_cons_self a l))

theorem resolveIds_some_pointwise (c : CacheMap) :
    ∀ (ids : List Int) (us : List User), resolveIds c ids = .ok (some us) →
      ids.map (cachedHit c) = us.map some := by
  intro ids
  induction ids with
  | nil =>
    intro us h
    simp only [resolveIds, Except.ok.injEq, Option.some.injEq] at h
    subst h
    rfl
  | cons a l ih =>
    intro us h
    rcases ha : getByIDCached c a with er | o
    · rw [resolveIds, ha] at h
      simp at h
    · cases o with
      | none =>
        rw [resolveIds, ha] at h
        simp at h
      | some u =>
        rcases hl : resolveIds c l with er2 | o2
        · rw [resolveIds, ha, hl] at h
          simp at h
        · cases o2 with
          | none =>
            rw [resolveIds, ha, hl] at h
            simp at h
          | some us2 =>
            rw [resolveIds, ha, hl] at h
            simp only [Except.ok.injEq, Option.some.injEq] at h
            subst h
            simp [cachedHit, ha, ih us2 hl]

/-- C5: for every cached list whose id sequence contains at least one id that
misses the single-entity cache, the List operation treats the whole list as a
cache miss and reloads it from the store (the reload result, never a partially
reconstructed page); and when every id resolves from the single-entity cache
it returns all of them in the cached order. -/
theorem c5_list_all_or_nothing (cfg : DalConfig) (s : DalState) (key : String)
    (ids : List Int) (dbRows : List User)
    (hr : cfg.blockedReads = false)
    (hk : lookupKey s.listCache key = some ids)
    (hne : ∀ i ∈ ids, getByIDCached s.cache i ≠ .error .typeError) :
    ((∃ i ∈ ids, getByIDCached s.cache i = .ok none) →
      ListById cfg s key dbRows = listReload cfg s key dbRows) ∧
    (∀ us, resolveIds s.cache ids = .ok (some us) →
      ListById cfg s key dbRows = (s, .ok us) ∧
      ids.map (cachedHit s.cache) = us.map some) := by
  constructor
  · intro hmiss
    have h0 := resolveIds_none_of_miss s.cache ids hne hmiss
    simp [ListById, hr, hk, h0]
  · intro us hres
    refine ⟨?_, resolveIds_some_pointwise s.cache ids us hres⟩
    simp [ListById, hr, hk, hres]

/-- C5 witness scenario: the list cache knows ids [1, 2] but only id 1 is in
the single-entity cache, so the whole page is reloaded from the store. -/
def s5 : DalState :=
  { store := [u1], cache := [("user:1", CVal.ent u1)],
    listCache := [("user_list_by_id:0:10", [1, 2])], countCache := [] }

theorem c5_witness :
    ListById cfg0 s5 "user_list_by_id:0:10" [u1] =
      listReload cfg0 s5 "user_list_by_id:0:10" [u1] :=
  (c5_list_all_or_nothing cfg0 s5 "user_list_by_id:0:10" [1, 2] [u1] rfl (by rfl)
      (by decide)).1 (by decide)

/-! ## Circuit breaker (spec §4.2, gobreaker wiring)

The gobreaker instance of a generated DAL is created by the DAL constructor in
the base template, which is not among the sources here; only its callers and
the breaker tests are.  The state machine and the success predicate are
therefore modelled from the spec: `closed --(consecutive failures >
threshold)--> open`, a success resets the failure count, a half-open success
closes the breaker, and — the sentence under test — "A not found outcome from
the backing store is a successful call from the breaker's perspective". -/

inductive BreakerState where
  | closed
  | opened
  | halfOpen
deriving DecidableEq, Repr

structure Breaker where
  state : BreakerState
  consecutiveFailures : Nat
  threshold : Nat
deriving DecidableEq, Repr

/-- Modelled from the spec: the success predicate of the breaker wrapper (the
`IsSuccessful` wiring of the missing DAL constructor): a nil error or
`ErrNotFound` counts as success, every other error as failure. -/
def callSucceeded (r : Except DalErr User) : Bool :=
  match r with
  | .ok _ => true
  | .error .notFound => true
  | .error _ => false

/-- Modelled from the spec: one breaker-wrapped store call.  `storeResult` is
what the wrapped store call would return; the returned Bool records whether
the store was actually reached (an open breaker fails fast without touching
it; the open→half-open timeout transition is outside this claim and not
modelled). -/
def breakerExecute (b : Breaker) (storeResult : Except DalErr User) :
    Breaker × Except DalErr User × Bool :=
  match b.state with
  | .opened => (b, .error .breakerOpen, false)
  | .halfOpen =>
    if callSucceeded storeResult then
      ({ b with state := .closed, consecutiveFailures := 0 }, storeResult, true)
    else
      ({ b with state := .opened, consecutiveFailures := b.consecutiveFailures + 1 },
       storeResult, true)
  | .closed =>
    if callSucceeded storeResult then
      ({ b with consecutiveFailures := 0 }, storeResult, true)
    else
      let f := b.consecutiveFailures + 1
      if b.threshold < f then
        ({ b with state := .opened, consecutiveFailures := f }, storeResult, true)
      else
        ({ b with consecutiveFailures := f }, storeResult, true)

/-- A sequence of breaker-wrapped read calls; returns the final breaker and
the reached-the-store flag of every call in order. -/
def runReads (b : Breaker) : List (Except DalErr User) → Breaker × List Bool
  | [] => (b, [])
  | r :: rs =>
    let step := breakerExecute b r
    let rest := runReads step.1 rs
    (rest.1, step.2.2 :: rest.2)

/-- C2 (spec-modelled): a "not found" outcome from the backing store counts as
a successful call from the circuit breaker's perspective: for every sequence
of read operations whose inner store calls each return the NotFound error,
the breaker never transitions to the open state (it stays closed with a zero
failure count) and every call in the sequence still reaches the store. -/
theorem c2_notfound_never_trips_breaker (b : Breaker)
    (rs : List (Except DalErr User))
    (hb : b.state = .closed)
    (hrs : ∀ r ∈ rs, r = .error .notFound) :
    (runReads b rs).1.state = .closed ∧
    ∀ f ∈ (runReads b rs).2, f = true := by
  induction rs generalizing b with
  | nil => exact ⟨hb, by intro f hf; cases hf⟩
  | cons r rest ih =>
    have hr : r = .error .notFound := hrs r (List.mem_cons_self r rest)
    have hstep : breakerExecute b r =
        ({ b with consecutiveFailures := 0 }, r, true) := by
      rw [hr]
      unfold breakerExecute
      rw [hb]
      rfl
    have ihr := ih { b with consecutiveFailures := 0 } hb
      (fun x hx => hrs x (List.mem_cons_of_mem r hx))
    constructor
    · show (runReads b (r :: rest)).1.state = .closed
      unfold runReads
      rw [hstep]
      exact ihr.1
    · intro f hf
      unfold runReads at hf
      rw [hstep] at hf
      rcases List.mem_cons.mp hf with h1 | h2
      · exact h1
      · exact ihr.2 f h2

/-- Three consecutive NotFound results, as returned by GetByID on absent ids. -/
def nfReads : List (Except DalErr User) :=
  [.error .notFound, .error .notFound, .error .notFound]

def b0 : Breaker := ⟨.closed, 0, 1⟩

/-- Witness for C2: three NotFound reads against a breaker with threshold 1
leave it closed, each call reaching the store. -/
theorem c2_witness :
    (b0.state = .closed ∧ ∀ r ∈ nfReads, r = Except.error DalErr.notFound) ∧
    (runReads b0 nfReads).1.state = .closed ∧
    ∀ f ∈ (runReads b0 nfReads).2, f = true :=
  ⟨⟨rfl, by decide⟩,
    c2_notfound_never_trips_breaker b0 nfReads rfl (by decide)⟩

/-! ## Pointer discipline of the single-entity cache (C10)

`setCached` stores `copy := *entity` and `getByIDCached` returns
`copy := *entity` (get_by_id.tmpl lines 50-51 and 69-70).  Value semantics
cannot express the aliasing question, so the two functions are re-modelled
here over an explicit heap: pointers are cell indices, `copy := *p` is a read
followed by an allocation, and the cache stores pointers.  Everything else is
verbatim from the template (including the ItemCount ceiling check). -/

structure Heap where
  cells : List User
deriving Repr

def Heap.read (h : Heap) (a : Nat) : Option User :=
  h.cells[a]?

/-- Allocate a fresh cell holding a copy; returns the new heap and the fresh
pointer. -/
def Heap.alloc (h : Heap) (u : User) : Heap × Nat :=
  (⟨h.cells ++ [u]⟩, h.cells.length)

/-- Mutate the cell a pointer refers to (what a caller writing through a
returned or stored entity pointer does). -/
def Heap.write (h : Heap) (a : Nat) (u : User) : Heap :=
  ⟨h.cells.set a u⟩

abbrev PtrCache := List (String × Nat)

/-- `setCached` over the explicit heap: below the ceiling, read the caller's
entity, allocate `copy := *entity`, and store the pointer to the copy. -/
def setCachedP (maxItems : Nat) (h : Heap) (c : PtrCache) (p : Nat) :
    Heap × PtrCache :=
  if c.length < maxItems then
    match h.read p with
    | some u =>
      let hq := h.alloc u
      (hq.1, setKey c (getCacheKey u.id) hq.2)
    | none => (h, c)
  else (h, c)

/-- `getByIDCached` over the explicit heap: on a hit, allocate
`copy := *entity` and return the pointer to the copy. -/
def getByIDCachedP (h : Heap) (c : PtrCache) (id : Int) : Heap × Option Nat :=
  match lookupKey c (getCacheKey id) with
  | some q =>
    match h.read q with
    | some u =>
      let hr := h.alloc u
      (hr.1, some hr.2)
    | none => (h, none)
  | none => (h, none)

theorem Heap.read_lt (h : Heap) (a : Nat) (u : User) (hu : h.read a = some u) :
    a < h.cells.length := by
  by_contra hge
  rw [Heap.read, List.getElem?_eq_none (by omega)] at hu
  cases hu

theorem Heap.read_alloc_old (h : Heap) (a : Nat) (w : User)
    (ha : a < h.cells.length) : (h.alloc w).1.read a = h.read a := by
  simp [Heap.alloc, Heap.read, List.getElem?_append, ha]

theorem Heap.read_alloc_new (h : Heap) (w : User) :
    (h.alloc w).1.read h.cells.length = some w := by
  simp [Heap.alloc, Heap.read]

theorem Heap.read_write_ne (h : Heap) (a b : Nat) (w : User) (hne : a ≠ b) :
    (h.write a w).read b = h.read b := by
  simp [Heap.write, Heap.read, List.getElem?_set_ne hne]

/-- C10: a single-entity cache hit returns a private copy: the pointer
returned by getByIDCachedP is a freshly allocated cell distinct from the
cached pointer, the cached snapshot is unchanged, and writing through the
returned pointer never changes the cached snapshot; likewise setCachedP
stores a pointer to a fresh copy of the caller's entity, so writing through
the caller's pointer never changes the stored snapshot. -/
theorem c10_cache_copies_are_private (h : Heap) (c : PtrCache) (id : Int)
    (q : Nat) (u : User)
    (hq : lookupKey c (getCacheKey id) = some q)
    (hu : h.read q = some u) :
    getByIDCachedP h c id = ((h.alloc u).1, some h.cells.length) ∧
    q ≠ h.cells.length ∧
    (h.alloc u).1.read q = some u ∧
    (∀ v, ((h.alloc u).1.write h.cells.length v).read q = some u) ∧
    (∀ maxItems p w, h.read p = some w → c.length < maxItems →
      setCachedP maxItems h c p = ((h.alloc w).1, setKey c (getCacheKey w.id) h.cells.length) ∧
      p ≠ h.cells.length ∧
      (∀ v, ((h.alloc w).1.write p v).read h.cells.length = some w)) := by
  have hqlt : q < h.cells.length := Heap.read_lt h q u hu
  have hget : getByIDCachedP h c id = ((h.alloc u).1, some h.cells.length) := by
    unfold getByIDCachedP
    simp only [hq, hu]
    rfl
  have hold : (h.alloc u).1.read q = some u := by
    rw [Heap.read_alloc_old h q u hqlt, hu]
  refine ⟨hget, by omega, hold, ?_, ?_⟩
  · intro v
    rw [Heap.read_write_ne _ _ _ _ (by omega), hold]
  · intro maxItems p w hp hlt
    have hplt : p < h.cells.length := Heap.read_lt h p w hp
    refine ⟨?_, by omega, ?_⟩
    · unfold setCachedP
      rw [if_pos hlt]
      simp only [hp]
      rfl
    · intro v
      rw [Heap.read_write_ne _ _ _ _ (by omega), Heap.read_alloc_new]

/-- C10 witness: a one-cell heap whose cell is cached under key user:1; the
hit hands out pointer 1, a fresh copy of cell 0. -/
theorem c10_witness :
    getByIDCachedP ⟨[u1]⟩ [("user:1", 0)] 1 = (⟨[u1, u1]⟩, some 1) ∧
    (0 : Nat) ≠ 1 ∧
    Heap.read ⟨[u1, u1]⟩ 0 = some u1 ∧
    (∀ v, (Heap.write ⟨[u1, u1]⟩ 1 v).read 0 = some u1) := by
  have h := c10_cache_copies_are_private ⟨[u1]⟩ [("user:1", 0)] 1 0 u1 (by rfl) (by rfl)
  exact ⟨h.1, h.2.1, h.2.2.1, h.2.2.2.1⟩

end DalForge
